import Mathlib

/-!
Verification of the EdgeTX-to-iNAV mission converter (`src/inav_missions.py`,
the fuller revision, called v2 below, and `src/inav-missions.py`, the earlier
revision, called v1 below).

The numeric type of the source (Python float) is embedded as an arbitrary
linear ordered field `K`; structural claims are proved for every `K` and every
distance function, which covers the program's concrete haversine, and the
counterexamples are stated at `K = ℝ` with the haversine translated from the
source (`haversine` in both files).

A raw CSV row is embedded at the granularity the parser observes it:
the `GPS` column is either empty, one of the no-fix sentinel strings, or a
list of whitespace tokens each of which parses to a number or raises; the
`Alt(m)` column parses to a number or raises. Every `except: continue` path
of the source becomes `none`.
-/

namespace EdgeTX2Mission

/-- The `GPS` field of one CSV row, as observed by `process_logs`:
`missing` is the empty string after `strip`, `sentinel` is one of the
literal no-fix strings rejected up front, and `toks` is the whitespace
token list, each token being `some` parsed number or `none` when
`float()` raises. -/
inductive GpsField (K : Type*) where
  | missing : GpsField K
  | sentinel : GpsField K
  | toks (ts : List (Option K)) : GpsField K

/-- One raw CSV row: the `GPS` field and the parse outcome of `Alt(m)`
(`none` when `float(row['Alt(m)'])` raises). -/
structure Row (K : Type*) where
  gps : GpsField K
  alt : Option K

/-- One validated telemetry sample a.k.a. kept waypoint triple
`(lat, lon, alt)`, as appended by `waypoints.append((lat, lon, alt))`. -/
structure Sample (K : Type*) where
  lat : K
  lon : K
  alt : K
deriving DecidableEq

variable {K : Type*} [LinearOrderedField K]

/-- Position extraction of v2 (`inav_missions.py` lines 35-42): empty and
sentinel strings are rejected, fewer than two tokens are rejected, and a
token on which `float` raises falls into the `except` clause (skip). -/
def parseGps : GpsField K → Option (K × K)
  | .missing => none
  | .sentinel => none
  | .toks (some lat :: some lon :: _) => some (lat, lon)
  | .toks _ => none

/-- Record validation of v2 (`inav_missions.py` lines 35-49): position,
the (0,0) no-fix check, the global coordinate range check, then altitude
(manual override, else the row's `Alt(m)`, a parse failure skipping the
record). -/
def parseRow (manualAlt : Option K) (r : Row K) : Option (Sample K) :=
  match parseGps r.gps with
  | none => none
  | some (lat, lon) =>
    if lat = 0 ∧ lon = 0 then none
    else if ¬(-90 ≤ lat ∧ lat ≤ 90 ∧ -180 ≤ lon ∧ lon ≤ 180) then none
    else
      match manualAlt with
      | some m => some ⟨lat, lon, m⟩
      | none =>
        match r.alt with
        | some a => some ⟨lat, lon, a⟩
        | none => none

/-- One decimation pass of v2 (`inav_missions.py` lines 28-65), as a fold
over the rows.  The state is `none` before the first kept sample and
`some (startPos, lastWpPos)` afterwards; `hav` is the distance function
(the source's `haversine`). -/
def passAux (hav : K × K → K × K → K) (manualAlt : Option K) (spacing : K) :
    List (Row K) → Option ((K × K) × (K × K)) → List (Sample K)
  | [], _ => []
  | r :: rs, st =>
    match parseRow manualAlt r with
    | none => passAux hav manualAlt spacing rs st
    | some s =>
      match st with
      | none => s :: passAux hav manualAlt spacing rs (some ((s.lat, s.lon), (s.lat, s.lon)))
      | some (sp, lw) =>
        if hav sp (s.lat, s.lon) > 500000 then
          passAux hav manualAlt spacing rs (some (sp, lw))
        else if hav lw (s.lat, s.lon) ≥ spacing then
          s :: passAux hav manualAlt spacing rs (some (sp, (s.lat, s.lon)))
        else
          passAux hav manualAlt spacing rs (some (sp, lw))

/-- One full decimation pass of v2 at a given spacing, starting with no
kept waypoint. -/
def process_logs_pass (hav : K × K → K × K → K) (manualAlt : Option K)
    (spacing : K) (rows : List (Row K)) : List (Sample K) :=
  passAux hav manualAlt spacing rows none

/-- Modelled from the spec: the turn angle of §4.3, the absolute value of
the signed angular difference between the current bearing and the last
bearing, normalized to the range 0 to 180. -/
def turnAngle (b1 b2 : K) : K :=
  if 180 < |b1 - b2| then 360 - |b1 - b2| else |b1 - b2|

/-- Modelled from the spec: the target spacing of §4.3: shrunk by
`max(0.3, 1 - turnAngle/90)` when the turn angle exceeds 10 degrees,
the full nominal spacing otherwise. -/
def turnTarget (spacing turn : K) : K :=
  if 10 < turn then spacing * max (3 / 10) (1 - turn / 90) else spacing

/-- Modelled from the spec: the keep decision of the turn-aware
decimation variant of §4.3, which is not among the files under src/
(src/ holds only the uniform-spacing revisions).  `lk` is the last kept
point, `lb` the last bearing when one is known, and the sample is kept
iff its distance from `lk` reaches the target spacing. -/
def turnKeep (hav bear : K × K → K × K → K) (spacing : K)
    (lk : K × K) (lb : Option K) (p : Sample K) : Bool :=
  let dist := hav lk (p.lat, p.lon)
  let tgt :=
    match lb with
    | some b => turnTarget spacing (turnAngle (bear lk (p.lat, p.lon)) b)
    | none => spacing
  decide (dist ≥ tgt)

/-- Modelled from the spec: one pass of the turn-aware decimation variant
of §4.3, which is not among the files under src/.  The state is the start
point, the last kept point and the last bearing; the first usable sample
is kept unconditionally, an implausible sensor jump is treated as absent,
and otherwise the sample is kept per `turnKeep`, updating the last kept
point and last bearing. -/
def turnPassAux (hav bear : K × K → K × K → K) (spacing : K) :
    List (Sample K) → Option ((K × K) × (K × K) × Option K) → List (Sample K)
  | [], _ => []
  | p :: ps, none =>
    p :: turnPassAux hav bear spacing ps (some ((p.lat, p.lon), (p.lat, p.lon), none))
  | p :: ps, some (sp, lk, lb) =>
    if hav sp (p.lat, p.lon) > 500000 then
      turnPassAux hav bear spacing ps (some (sp, lk, lb))
    else if turnKeep hav bear spacing lk lb p then
      p :: turnPassAux hav bear spacing ps
        (some (sp, (p.lat, p.lon), some (bear lk (p.lat, p.lon))))
    else
      turnPassAux hav bear spacing ps (some (sp, lk, lb))

variable [FloorRing K]

/-- Python `int()` on a number: truncation toward zero. -/
def pyInt (q : K) : ℤ := if 0 ≤ q then ⌊q⌋ else ⌈q⌉

/-- Python speed conversion `int(raw_speed * 100000 / 3600)` (km/h to
cm/s, truncated), from both revisions' `index`. -/
def kmhToCms (v : K) : ℤ := pyInt (v * 100000 / 3600)

/-- Modelled from the spec: the per-record ground-speed resolution of
§4.2 step 4.  The revisions under src/ never read a speed column (the
configured cruise speed, which the form always supplies, is attached to
every waypoint), so the record-level fallback described by the spec is
modelled here: the configured manual speed wins when supplied, else the
record's optional ground-speed field is converted to cm/s when present,
and its absence yields no speed rather than a rejected record. -/
def resolveGroundSpeed (manualSpeed : Option ℤ) (recSpeed : Option K) : Option ℤ :=
  match manualSpeed with
  | some m => some m
  | none =>
    match recSpeed with
    | some v => some (kmhToCms v)
    | none => none

/-- The outer spacing-search loop of v2 (`inav_missions.py` lines 27-74),
returning the chosen pass result together with the number of decimation
passes performed.  An empty pass returns immediately; a pass fitting the
waypoint limit, or reached after the spacing exceeds 5000, is returned;
otherwise the spacing grows by 10 and the loop repeats. -/
def searchAux [FloorRing K] (hav : K × K → K × K → K) (manualAlt : Option K) (maxWps : ℕ)
    (rows : List (Row K)) (s : K) : List (Sample K) × ℕ :=
  let w := process_logs_pass hav manualAlt s rows
  if w = [] then ([], 1)
  else if w.length ≤ maxWps ∨ s > 5000 then (w, 1)
  else
    let p := searchAux hav manualAlt maxWps rows (s + 10)
    (p.1, p.2 + 1)
termination_by (⌈(5010 : K) - s⌉).toNat
decreasing_by
  rename_i h2
  push_neg at h2
  have hs : s ≤ 5000 := h2.2
  have h10 : (10 : ℤ) ≤ ⌈(5010 : K) - s⌉ := by
    have hle : ((10 : ℤ) : K) ≤ (5010 : K) - s := by push_cast; linarith [hs]
    calc (10 : ℤ) = ⌈((10 : ℤ) : K)⌉ := (Int.ceil_intCast 10).symm
    _ ≤ ⌈(5010 : K) - s⌉ := Int.ceil_le_ceil hle
  have heq : ⌈(5010 : K) - (s + 10)⌉ = ⌈(5010 : K) - s⌉ - 10 := by
    rw [show (5010 : K) - (s + 10) = ((5010 : K) - s) - ((10 : ℤ) : K) by push_cast; ring,
      Int.ceil_sub_int]
  rw [heq]
  omega

/-- `process_logs` of v2: the waypoint list returned by the spacing
search started at the base spacing. -/
def process_logs (hav : K × K → K × K → K) (manualAlt : Option K) (maxWps : ℕ)
    (rows : List (Row K)) (baseSpacing : K) : List (Sample K) :=
  (searchAux hav manualAlt maxWps rows baseSpacing).1

/-- The number of decimation passes the v2 spacing search performs. -/
def passCount (hav : K × K → K × K → K) (manualAlt : Option K) (maxWps : ℕ)
    (rows : List (Row K)) (baseSpacing : K) : ℕ :=
  (searchAux hav manualAlt maxWps rows baseSpacing).2

/-- One `missionitem` element, restricted to the attributes the claims
are about (`no`, `lat`, `lon`, `alt`, `parameter1`, `parameter3`). -/
structure MissionItem (K : Type*) where
  no : ℕ
  lat : K
  lon : K
  alt : ℤ
  parameter1 : ℤ
  parameter3 : ℤ
deriving DecidableEq

/-- The XML generation loop `for i, (lat, lon, alt) in enumerate(wps, start=1)`
of both revisions: one `missionitem` per waypoint, numbered from `n`. -/
def buildItems (speed : ℤ) (p3 : ℤ) : List (Sample K) → ℕ → List (MissionItem K)
  | [], _ => []
  | w :: ws, n => ⟨n, w.lat, w.lon, pyInt w.alt, speed, p3⟩ :: buildItems speed p3 ws (n + 1)

/-- The mission document: its ordered `missionitem` elements. -/
structure MissionDoc (K : Type*) where
  items : List (MissionItem K)
deriving DecidableEq

/-- The conversion core of the v2 `index` route (`inav_missions.py` lines
128-153): run `process_logs`, and only when the result is non-empty build
the mission document (`parameter3` is "0" in v2); an empty result flashes
an error and redirects, producing no document (`none`). -/
def index_v2_core (hav : K × K → K × K → K) (manualAlt : Option K) (maxWps : ℕ)
    (speed : ℤ) (rows : List (Row K)) (baseSpacing : K) : Option (MissionDoc K) :=
  let wps := process_logs hav manualAlt maxWps rows baseSpacing
  if wps = [] then none
  else some ⟨buildItems speed 0 wps 1⟩

end EdgeTX2Mission

namespace EdgeTX2MissionV1

open EdgeTX2Mission

variable {K : Type*} [LinearOrderedField K]

/-- Position extraction of v1 (`inav-missions.py` lines 33-37): only the
empty string and the literal `0` are rejected up front; a missing second
token raises `IndexError` and a bad token raises in `float`, both caught
by the `except` clause. -/
def parseGps_v1 : GpsField K → Option (K × K)
  | .missing => none
  | .sentinel => none
  | .toks (some lat :: some lon :: _) => some (lat, lon)
  | .toks _ => none

/-- Record validation of v1 (`inav-missions.py` lines 33-40): position,
then altitude (manual override, else `Alt(m)`), then the continental-US
bounding-box check `LAT_MIN <= lat <= LAT_MAX and LON_MIN <= lon <= LON_MAX`. -/
def parseRow_v1 (manualAlt : Option K) (r : Row K) : Option (Sample K) :=
  match parseGps_v1 r.gps with
  | none => none
  | some (lat, lon) =>
    match (match manualAlt with | some m => some m | none => r.alt) with
    | none => none
    | some alt =>
      if ¬(24396308 / 1000000 ≤ lat ∧ lat ≤ 49384358 / 1000000 ∧
            -125 ≤ lon ∧ lon ≤ -6693457 / 100000) then none
      else some ⟨lat, lon, alt⟩

/-- One decimation pass of v1 (`inav-missions.py` lines 26-53): same fold
as v2 but with the v1 record validation and the 50 km sensor-jump ceiling. -/
def passAux_v1 (hav : K × K → K × K → K) (manualAlt : Option K) (spacing : K) :
    List (Row K) → Option ((K × K) × (K × K)) → List (Sample K)
  | [], _ => []
  | r :: rs, st =>
    match parseRow_v1 manualAlt r with
    | none => passAux_v1 hav manualAlt spacing rs st
    | some s =>
      match st with
      | none => s :: passAux_v1 hav manualAlt spacing rs (some ((s.lat, s.lon), (s.lat, s.lon)))
      | some (sp, lw) =>
        if hav sp (s.lat, s.lon) > 50 * 1000 then
          passAux_v1 hav manualAlt spacing rs (some (sp, lw))
        else if hav lw (s.lat, s.lon) ≥ spacing then
          s :: passAux_v1 hav manualAlt spacing rs (some (sp, (s.lat, s.lon)))
        else
          passAux_v1 hav manualAlt spacing rs (some (sp, lw))

/-- The v1 spacing loop (`inav-missions.py` lines 74-78): `while True`
with no spacing ceiling and no empty check, breaking only when the pass
fits `MAX_WAYPOINTS = 100`, the spacing growing by 50.  The source loop
has no syntactic termination guarantee, so it is embedded with explicit
fuel; `none` is divergence. -/
def v1SearchAux (hav : K × K → K × K → K) (manualAlt : Option K)
    (rows : List (Row K)) : ℕ → K → Option (List (Sample K))
  | 0, _ => none
  | fuel + 1, s =>
    let w := passAux_v1 hav manualAlt s rows none
    if w.length ≤ 100 then some w else v1SearchAux hav manualAlt rows fuel (s + 50)

variable [FloorRing K]

/-- The conversion core of the v1 `index` route (`inav-missions.py` lines
74-97): run the spacing loop starting at `INITIAL_SPACING = 300` and
unconditionally build the mission document from whatever it returns
(`parameter3` is "1" in v1); there is no empty-result check. -/
def index_v1_core (hav : K × K → K × K → K) (manualAlt : Option K)
    (speed : ℤ) (rows : List (Row K)) (fuel : ℕ) : Option (MissionDoc K) :=
  match v1SearchAux hav manualAlt rows fuel 300 with
  | none => none
  | some wps => some ⟨buildItems speed 1 wps 1⟩

end EdgeTX2MissionV1

namespace RealGeo

/-- Python `math.radians`: degrees to radians. -/
noncomputable def rad (x : ℝ) : ℝ := x * Real.pi / 180

/-- C's `atan2(y, x)` on the real numbers, as called by the source's
`math.atan2`: the angle of the point `(x, y)`, by the usual case split. -/
noncomputable def atan2 (y x : ℝ) : ℝ :=
  if 0 < x then Real.arctan (y / x)
  else if x < 0 ∧ 0 ≤ y then Real.arctan (y / x) + Real.pi
  else if x < 0 then Real.arctan (y / x) - Real.pi
  else if 0 < y then Real.pi / 2
  else if y < 0 then -(Real.pi / 2)
  else 0

/-- The source's `haversine(lat1, lon1, lat2, lon2)` (identical in both
revisions): great-circle distance in meters on a sphere of radius
6,371,000 m. -/
noncomputable def haversine (lat1 lon1 lat2 lon2 : ℝ) : ℝ :=
  let R : ℝ := 6371000
  let phi1 := rad lat1
  let phi2 := rad lat2
  let dphi := rad (lat2 - lat1)
  let dlambda := rad (lon2 - lon1)
  let a := Real.sin (dphi / 2) ^ 2 + Real.cos phi1 * Real.cos phi2 * Real.sin (dlambda / 2) ^ 2
  2 * R * atan2 (Real.sqrt a) (Real.sqrt (1 - a))

/-- The source's `haversine` as a distance function on points, the shape
`process_logs` consumes it in. -/
noncomputable def havR : ℝ × ℝ → ℝ × ℝ → ℝ := fun p q => haversine p.1 p.2 q.1 q.2

end RealGeo

namespace EdgeTX2Mission

variable {K : Type*} [LinearOrderedField K]
variable {hav : K × K → K × K → K} {ma : Option K} {sp : K}

theorem passAux_parse_none {r : Row K} (hp : parseRow ma r = none)
    (rs : List (Row K)) (st : Option ((K × K) × (K × K))) :
    passAux hav ma sp (r :: rs) st = passAux hav ma sp rs st := by
  simp [passAux, hp]

theorem passAux_first {r : Row K} {s : Sample K} (hp : parseRow ma r = some s)
    (rs : List (Row K)) :
    passAux hav ma sp (r :: rs) none =
      s :: passAux hav ma sp rs (some ((s.lat, s.lon), (s.lat, s.lon))) := by
  simp [passAux, hp]

theorem passAux_jump {r : Row K} {s : Sample K} {spos lw : K × K}
    (hp : parseRow ma r = some s) (hj : hav spos (s.lat, s.lon) > 500000)
    (rs : List (Row K)) :
    passAux hav ma sp (r :: rs) (some (spos, lw)) = passAux hav ma sp rs (some (spos, lw)) := by
  simp [passAux, hp, hj]

theorem passAux_keep {r : Row K} {s : Sample K} {spos lw : K × K}
    (hp : parseRow ma r = some s) (hj : ¬ hav spos (s.lat, s.lon) > 500000)
    (hk : hav lw (s.lat, s.lon) ≥ sp) (rs : List (Row K)) :
    passAux hav ma sp (r :: rs) (some (spos, lw)) =
      s :: passAux hav ma sp rs (some (spos, (s.lat, s.lon))) := by
  simp [passAux, hp, hj, hk]

theorem passAux_skip {r : Row K} {s : Sample K} {spos lw : K × K}
    (hp : parseRow ma r = some s) (hj : ¬ hav spos (s.lat, s.lon) > 500000)
    (hk : ¬ hav lw (s.lat, s.lon) ≥ sp) (rs : List (Row K)) :
    passAux hav ma sp (r :: rs) (some (spos, lw)) = passAux hav ma sp rs (some (spos, lw)) := by
  simp [passAux, hp, hj, hk]

theorem passAux_sublist (rows : List (Row K)) :
    ∀ st, List.Sublist (passAux hav ma sp rows st) (rows.filterMap (parseRow ma)) := by
  induction rows with
  | nil => intro st; simp [passAux]
  | cons r rs ih =>
    intro st
    cases hp : parseRow ma r with
    | none =>
      rw [passAux_parse_none hp]
      simpa [List.filterMap_cons, hp] using ih st
    | some s =>
      have hfm : (r :: rs).filterMap (parseRow ma) = s :: rs.filterMap (parseRow ma) := by
        simp [List.filterMap_cons, hp]
      rw [hfm]
      cases st with
      | none => rw [passAux_first hp]; exact (ih _).cons₂ s
      | some pr =>
        obtain ⟨spos, lw⟩ := pr
        by_cases hj : hav spos (s.lat, s.lon) > 500000
        · rw [passAux_jump hp hj]; exact (ih _).cons s
        · by_cases hk : hav lw (s.lat, s.lon) ≥ sp
          · rw [passAux_keep hp hj hk]; exact (ih _).cons₂ s
          · rw [passAux_skip hp hj hk]; exact (ih _).cons s

/-- C10: every decimation pass output is an in-order subsequence of the
successfully parsed records: each output waypoint is, verbatim, the
`(lat, lon, alt)` triple `parseRow` extracted from one input row (with
the altitude already replaced by the manual override when one is
supplied), no row contributes more than one waypoint, and the output
order is the input row order. -/
theorem pass_output_subsequence (hav : K × K → K × K → K) (ma : Option K)
    (sp : K) (rows : List (Row K)) :
    List.Sublist (process_logs_pass hav ma sp rows) (rows.filterMap (parseRow ma)) :=
  passAux_sublist rows none

theorem parseRow_bounds {r : Row K} {s : Sample K} (h : parseRow ma r = some s) :
    (-90 ≤ s.lat ∧ s.lat ≤ 90 ∧ -180 ≤ s.lon ∧ s.lon ≤ 180) ∧ ¬(s.lat = 0 ∧ s.lon = 0) := by
  unfold parseRow at h
  cases hg : parseGps r.gps with
  | none => rw [hg] at h; exact absurd h (by simp)
  | some p =>
    obtain ⟨lat, lon⟩ := p
    rw [hg] at h
    dsimp only at h
    by_cases h00 : lat = 0 ∧ lon = 0
    · rw [if_pos h00] at h; exact absurd h (by simp)
    · rw [if_neg h00] at h
      by_cases hr : -90 ≤ lat ∧ lat ≤ 90 ∧ -180 ≤ lon ∧ lon ≤ 180
      · rw [if_neg (not_not_intro hr)] at h
        have hs : s.lat = lat ∧ s.lon = lon := by
          cases ma with
          | some m => simp at h; rw [← h]; exact ⟨rfl, rfl⟩
          | none =>
            cases ha : r.alt with
            | some a => rw [ha] at h; simp at h; rw [← h]; exact ⟨rfl, rfl⟩
            | none => rw [ha] at h; exact absurd h (by simp)
        rw [hs.1, hs.2]
        exact ⟨hr, h00⟩
      · rw [if_pos hr] at h; exact absurd h (by simp)

theorem passAux_v1_parse_none {r : Row K} (hp : EdgeTX2MissionV1.parseRow_v1 ma r = none)
    (rs : List (Row K)) (st : Option ((K × K) × (K × K))) :
    EdgeTX2MissionV1.passAux_v1 hav ma sp (r :: rs) st =
      EdgeTX2MissionV1.passAux_v1 hav ma sp rs st := by
  simp [EdgeTX2MissionV1.passAux_v1, hp]

theorem passAux_v1_sublist (rows : List (Row K)) :
    ∀ st, List.Sublist (EdgeTX2MissionV1.passAux_v1 hav ma sp rows st)
      (rows.filterMap (EdgeTX2MissionV1.parseRow_v1 ma)) := by
  induction rows with
  | nil => intro st; simp [EdgeTX2MissionV1.passAux_v1]
  | cons r rs ih =>
    intro st
    cases hp : EdgeTX2MissionV1.parseRow_v1 ma r with
    | none =>
      rw [passAux_v1_parse_none hp]
      simpa [List.filterMap_cons, hp] using ih st
    | some s =>
      have hfm : (r :: rs).filterMap (EdgeTX2MissionV1.parseRow_v1 ma) =
          s :: rs.filterMap (EdgeTX2MissionV1.parseRow_v1 ma) := by
        simp [List.filterMap_cons, hp]
      rw [hfm]
      cases st with
      | none =>
        rw [show EdgeTX2MissionV1.passAux_v1 hav ma sp (r :: rs) none =
            s :: EdgeTX2MissionV1.passAux_v1 hav ma sp rs (some ((s.lat, s.lon), (s.lat, s.lon)))
          by simp [EdgeTX2MissionV1.passAux_v1, hp]]
        exact (ih _).cons₂ s
      | some pr =>
        obtain ⟨spos, lw⟩ := pr
        by_cases hj : hav spos (s.lat, s.lon) > 50 * 1000
        · rw [show EdgeTX2MissionV1.passAux_v1 hav ma sp (r :: rs) (some (spos, lw)) =
              EdgeTX2MissionV1.passAux_v1 hav ma sp rs (some (spos, lw))
            by simp [EdgeTX2MissionV1.passAux_v1, hp, hj]]
          exact (ih _).cons s
        · by_cases hk : hav lw (s.lat, s.lon) ≥ sp
          · rw [show EdgeTX2MissionV1.passAux_v1 hav ma sp (r :: rs) (some (spos, lw)) =
                s :: EdgeTX2MissionV1.passAux_v1 hav ma sp rs (some (spos, (s.lat, s.lon)))
              by simp [EdgeTX2MissionV1.passAux_v1, hp, hj, hk]]
            exact (ih _).cons₂ s
          · rw [show EdgeTX2MissionV1.passAux_v1 hav ma sp (r :: rs) (some (spos, lw)) =
                EdgeTX2MissionV1.passAux_v1 hav ma sp rs (some (spos, lw))
              by simp [EdgeTX2MissionV1.passAux_v1, hp, hj, hk]]
            exact (ih _).cons s

theorem parseRow_v1_bounds {r : Row K} {s : Sample K}
    (h : EdgeTX2MissionV1.parseRow_v1 ma r = some s) :
    (24396308 / 1000000 ≤ s.lat ∧ s.lat ≤ 49384358 / 1000000 ∧
      -125 ≤ s.lon ∧ s.lon ≤ -6693457 / 100000) ∧ ¬(s.lat = 0 ∧ s.lon = 0) := by
  unfold EdgeTX2MissionV1.parseRow_v1 at h
  cases hg : EdgeTX2MissionV1.parseGps_v1 r.gps with
  | none => rw [hg] at h; exact absurd h (by simp)
  | some p =>
    obtain ⟨lat, lon⟩ := p
    rw [hg] at h
    dsimp only at h
    have halt : ∃ alt,
        (match ma with | some m => some m | none => r.alt) = some alt ∧
        (if ¬(24396308 / 1000000 ≤ lat ∧ lat ≤ 49384358 / 1000000 ∧
              -125 ≤ lon ∧ lon ≤ -6693457 / 100000) then none
          else some (⟨lat, lon, alt⟩ : Sample K)) = some s := by
      cases hma : (match ma with | some m => some m | none => r.alt) with
      | none => rw [hma] at h; exact absurd h (by simp)
      | some alt => rw [hma] at h; exact ⟨alt, rfl, h⟩
    obtain ⟨alt, -, h2⟩ := halt
    by_cases hr : 24396308 / 1000000 ≤ lat ∧ lat ≤ 49384358 / 1000000 ∧
        -125 ≤ lon ∧ lon ≤ -6693457 / 100000
    · rw [if_neg (not_not_intro hr)] at h2
      have hs : s.lat = lat ∧ s.lon = lon := by
        simp at h2; rw [← h2]; exact ⟨rfl, rfl⟩
      rw [hs.1, hs.2]
      refine ⟨hr, fun h0 => ?_⟩
      have := hr.1
      rw [h0.1] at this
      norm_num at this
    · rw [if_pos hr] at h2; exact absurd h2 (by simp)

/-- C7: every waypoint output by the v2 decimation pass has latitude in
[-90, 90], longitude in [-180, 180] and is not at the (0,0) no-fix
position; every waypoint output by the v1 pass lies in the configured
bounding box (which likewise excludes (0,0)). -/
theorem pass_output_coords_valid (hav : K × K → K × K → K) (ma : Option K)
    (sp : K) (rows : List (Row K)) :
    (∀ w ∈ process_logs_pass hav ma sp rows,
      (-90 ≤ w.lat ∧ w.lat ≤ 90 ∧ -180 ≤ w.lon ∧ w.lon ≤ 180) ∧ ¬(w.lat = 0 ∧ w.lon = 0)) ∧
    (∀ w ∈ EdgeTX2MissionV1.passAux_v1 hav ma sp rows none,
      (24396308 / 1000000 ≤ w.lat ∧ w.lat ≤ 49384358 / 1000000 ∧
        -125 ≤ w.lon ∧ w.lon ≤ -6693457 / 100000) ∧ ¬(w.lat = 0 ∧ w.lon = 0)) := by
  constructor
  · intro w hw
    have hm := (passAux_sublist rows none).subset hw
    rw [List.mem_filterMap] at hm
    obtain ⟨r, -, hr⟩ := hm
    exact parseRow_bounds hr
  · intro w hw
    have hm := (passAux_v1_sublist rows none).subset hw
    rw [List.mem_filterMap] at hm
    obtain ⟨r, -, hr⟩ := hm
    exact parseRow_v1_bounds hr

theorem pass_output_coords_valid_witness :
    (((-90 : ℚ) ≤ 30 ∧ (30 : ℚ) ≤ 90 ∧ (-180 : ℚ) ≤ -100 ∧ (-100 : ℚ) ≤ 180) ∧
      ¬((30 : ℚ) = 0 ∧ (-100 : ℚ) = 0)) ∧
    (((24396308 : ℚ) / 1000000 ≤ 30 ∧ (30 : ℚ) ≤ 49384358 / 1000000 ∧
      (-125 : ℚ) ≤ -100 ∧ (-100 : ℚ) ≤ -6693457 / 100000) ∧
      ¬((30 : ℚ) = 0 ∧ (-100 : ℚ) = 0)) :=
  ⟨(pass_output_coords_valid (fun _ _ => (0 : ℚ)) none 100
      [⟨.toks [some 30, some (-100)], some 50⟩]).1 ⟨30, -100, 50⟩ (by decide),
   (pass_output_coords_valid (fun _ _ => (0 : ℚ)) none 100
      [⟨.toks [some 30, some (-100)], some 50⟩]).2 ⟨30, -100, 50⟩ (by
        norm_num [EdgeTX2MissionV1.passAux_v1, EdgeTX2MissionV1.parseRow_v1,
          EdgeTX2MissionV1.parseGps_v1])⟩

theorem buildItems_map_no [FloorRing K] (speed p3 : ℤ) (wps : List (Sample K)) :
    ∀ n : ℕ, (buildItems speed p3 wps n).map (fun it => it.no) = List.range' n wps.length := by
  induction wps with
  | nil => intro n; simp [buildItems]
  | cons w ws ih => intro n; simp [buildItems, ih, List.range'_succ]

/-- C9: the serialization loop numbers the `missionitem` elements of a
waypoint list of length N exactly 1, 2, ..., N, in emission order, with
no gaps (in both revisions, i.e. for either `parameter3` constant). -/
theorem missionitem_numbers [FloorRing K] (speed p3 : ℤ) (wps : List (Sample K)) :
    (buildItems speed p3 wps 1).map (fun it => it.no) = List.range' 1 wps.length :=
  buildItems_map_no speed p3 wps 1

theorem passAux_middle_skip {r : Row K} (h : parseRow ma r = none) (post : List (Row K)) :
    ∀ (pre : List (Row K)) (st : Option ((K × K) × (K × K))),
      passAux hav ma sp (pre ++ r :: post) st = passAux hav ma sp (pre ++ post) st := by
  intro pre
  induction pre with
  | nil => intro st; exact passAux_parse_none h post st
  | cons p pres ih =>
    intro st
    simp only [List.cons_append]
    cases hp : parseRow ma p with
    | none => rw [passAux_parse_none hp, passAux_parse_none hp]; exact ih st
    | some s =>
      cases st with
      | none => rw [passAux_first hp, passAux_first hp]; exact congrArg _ (ih _)
      | some pr =>
        obtain ⟨spos, lw⟩ := pr
        by_cases hj : hav spos (s.lat, s.lon) > 500000
        · rw [passAux_jump hp hj, passAux_jump hp hj]; exact ih _
        · by_cases hk : hav lw (s.lat, s.lon) ≥ sp
          · rw [passAux_keep hp hj hk, passAux_keep hp hj hk]; exact congrArg _ (ih _)
          · rw [passAux_skip hp hj hk, passAux_skip hp hj hk]; exact ih _

/-- C8: a record on which parsing fails in any way is skipped and the
pass continues with the remaining records unchanged: the pass on any
surrounding context equals the pass with the bad record deleted.  The
further conjuncts check that each failure mode of the source (empty
position, no-fix sentinel, fewer than two tokens, an unparsable token,
an unparsable altitude with no manual override) indeed makes `parseRow`
fail. -/
theorem parse_failure_skips_record (hav : K × K → K × K → K) (ma : Option K)
    (sp : K) (r : Row K) (pre post : List (Row K)) (h : parseRow ma r = none) :
    process_logs_pass hav ma sp (pre ++ r :: post) = process_logs_pass hav ma sp (pre ++ post) ∧
    (∀ a : Option K, parseRow ma ⟨.missing, a⟩ = none) ∧
    (∀ a : Option K, parseRow ma ⟨.sentinel, a⟩ = none) ∧
    (∀ a : Option K, parseRow ma ⟨.toks [], a⟩ = none) ∧
    (∀ (a : Option K) (t : Option K), parseRow ma ⟨.toks [t], a⟩ = none) ∧
    (∀ (a : Option K) (t : Option K) (ts : List (Option K)),
      parseRow ma ⟨.toks (none :: t :: ts), a⟩ = none) ∧
    (∀ (lat : K) (ts : List (Option K)) (a : Option K),
      parseRow ma ⟨.toks (some lat :: none :: ts), a⟩ = none) ∧
    (∀ g : GpsField K, ∀ lat lon : K, parseGps g = some (lat, lon) →
      parseRow (none : Option K) ⟨g, none⟩ = none) := by
  refine ⟨passAux_middle_skip h post pre none, fun a => rfl, fun a => rfl, fun a => rfl,
    fun a t => ?_, fun a t ts => rfl, fun lat ts a => rfl, fun g lat lon hg => ?_⟩
  · cases t <;> rfl
  · simp only [parseRow, hg]
    split
    · rfl
    · split
      · rfl
      · rfl

theorem parse_failure_skips_record_witness :
    process_logs_pass (fun _ _ => (0 : ℚ)) none 100
        ([⟨.toks [some 30, some (-100)], some 50⟩] ++ ⟨.missing, some 7⟩ ::
          [⟨.toks [some 31, some (-101)], some 60⟩]) =
      process_logs_pass (fun _ _ => (0 : ℚ)) none 100
        ([⟨.toks [some 30, some (-100)], some 50⟩] ++ [⟨.toks [some 31, some (-101)], some 60⟩]) :=
  (parse_failure_skips_record (fun _ _ => (0 : ℚ)) none 100 ⟨.missing, some 7⟩
    [⟨.toks [some 30, some (-100)], some 50⟩]
    [⟨.toks [some 31, some (-101)], some 60⟩] (by decide)).1

/-- C6: the ground speed attached to a waypoint.  The record-level rule
is the spec-modelled `resolveGroundSpeed`: the configured manual speed
wins when supplied, otherwise the record's optional ground-speed field is
converted to cm/s when present, and an absent field yields no speed
rather than a skipped record (the decimator's row handling never reads a
speed at all, and the serializer attaches the configured speed to every
waypoint, which the last conjunct checks on the embedded source). -/
theorem ground_speed_resolution [FloorRing K] :
    (∀ (m : ℤ) (rs : Option K), resolveGroundSpeed (some m) rs = some m) ∧
    (∀ v : K, resolveGroundSpeed none (some v) = some (kmhToCms v)) ∧
    (resolveGroundSpeed none (none : Option K) = none) ∧
    (∀ (speed p3 : ℤ) (wps : List (Sample K)) (n : ℕ),
      ∀ it ∈ buildItems speed p3 wps n, it.parameter1 = speed) := by
  refine ⟨fun m rs => rfl, fun v => rfl, rfl, fun speed p3 wps => ?_⟩
  induction wps with
  | nil => intro n it hit; simp [buildItems] at hit
  | cons w ws ih =>
    intro n it hit
    rw [buildItems] at hit
    rcases List.mem_cons.mp hit with h1 | h2
    · rw [h1]
    · exact ih (n + 1) it h2

theorem ground_speed_resolution_witness :
    resolveGroundSpeed (some 7) (some (5 : ℚ)) = some 7 ∧
    resolveGroundSpeed none (some (25 : ℚ)) = some (kmhToCms (25 : ℚ)) ∧
    resolveGroundSpeed none (none : Option ℚ) = none ∧
    (⟨1, (1 : ℚ), 2, 3, 694, 0⟩ : MissionItem ℚ).parameter1 = 694 :=
  ⟨(ground_speed_resolution (K := ℚ)).1 7 (some 5),
   (ground_speed_resolution (K := ℚ)).2.1 25,
   (ground_speed_resolution (K := ℚ)).2.2.1,
   (ground_speed_resolution (K := ℚ)).2.2.2 694 0 [⟨1, 2, 3⟩] 1
     ⟨1, 1, 2, 3, 694, 0⟩ (by decide)⟩

/-- C1: in the turn-aware decimation variant (modelled from the spec,
src/ holding only the uniform-spacing revisions), a sample after the
first kept one that is not a sensor jump is kept iff its distance from
the last kept point reaches the target spacing, where the target is
`spacing * max(0.3, 1 - turnAngle/90)` when a previous bearing is known
and the turn angle exceeds 10 degrees, and the full nominal spacing when
the turn angle is at most 10 degrees or no previous bearing is known. -/
theorem turn_aware_keep_rule (hav bear : K × K → K × K → K) (spacing : K)
    (spos lk : K × K) (lb : Option K) (p : Sample K) (ps : List (Sample K))
    (hjump : ¬ hav spos (p.lat, p.lon) > 500000) :
    (turnPassAux hav bear spacing (p :: ps) (some (spos, lk, lb)) =
      if turnKeep hav bear spacing lk lb p then
        p :: turnPassAux hav bear spacing ps
          (some (spos, (p.lat, p.lon), some (bear lk (p.lat, p.lon))))
      else turnPassAux hav bear spacing ps (some (spos, lk, lb))) ∧
    (∀ b, lb = some b → 10 < turnAngle (bear lk (p.lat, p.lon)) b →
      (turnKeep hav bear spacing lk lb p = true ↔
        hav lk (p.lat, p.lon) ≥
          spacing * max (3 / 10) (1 - turnAngle (bear lk (p.lat, p.lon)) b / 90))) ∧
    (∀ b, lb = some b → turnAngle (bear lk (p.lat, p.lon)) b ≤ 10 →
      (turnKeep hav bear spacing lk lb p = true ↔ hav lk (p.lat, p.lon) ≥ spacing)) ∧
    (lb = none → (turnKeep hav bear spacing lk lb p = true ↔ hav lk (p.lat, p.lon) ≥ spacing)) := by
  refine ⟨?_, fun b hb hangle => ?_, fun b hb hangle => ?_, fun hb => ?_⟩
  · simp [turnPassAux, hjump]
  · subst hb; simp [turnKeep, turnTarget, if_pos hangle]
  · subst hb; simp [turnKeep, turnTarget, if_neg (not_lt.mpr hangle)]
  · subst hb; simp [turnKeep]

theorem turn_aware_keep_rule_witness :
    ¬ ((fun (_ _ : ℚ × ℚ) => (70 : ℚ)) (0, 0) (0, 0) > 500000) ∧
    turnKeep (fun _ _ => (70 : ℚ)) (fun _ _ => (100 : ℚ)) 90 (0, 0) (some 80) ⟨0, 0, 0⟩ = true :=
  ⟨by norm_num,
   ((turn_aware_keep_rule (fun _ _ => (70 : ℚ)) (fun _ _ => (100 : ℚ)) 90 (0, 0) (0, 0)
        (some 80) ⟨0, 0, 0⟩ [] (by norm_num)).2.1 80 rfl
      (by norm_num [turnAngle])).mpr
    (by norm_num [turnAngle, abs_of_nonneg, max_def])⟩

end EdgeTX2Mission

namespace EdgeTX2Mission

variable {K : Type*} [LinearOrderedField K]

theorem searchAux_eq [FloorRing K]
    (hav : K × K → K × K → K) (ma : Option K) (mw : ℕ) (rows : List (Row K)) (s : K) :
    searchAux hav ma mw rows s =
      if process_logs_pass hav ma s rows = [] then ([], 1)
      else if (process_logs_pass hav ma s rows).length ≤ mw ∨ s > 5000 then
        (process_logs_pass hav ma s rows, 1)
      else ((searchAux hav ma mw rows (s + 10)).1, (searchAux hav ma mw rows (s + 10)).2 + 1) := by
  rw [searchAux]

theorem searchAux_stop [FloorRing K] {hav : K × K → K × K → K} {ma : Option K}
    {mw : ℕ} {rows : List (Row K)} {s : K}
    (h : (process_logs_pass hav ma s rows).length ≤ mw ∨ s > 5000 ∨
      process_logs_pass hav ma s rows = []) :
    searchAux hav ma mw rows s = (process_logs_pass hav ma s rows, 1) := by
  rw [searchAux_eq]
  by_cases hw : process_logs_pass hav ma s rows = []
  · rw [if_pos hw, hw]
  · rcases h with h | h | h
    · rw [if_neg hw, if_pos (Or.inl h)]
    · rw [if_neg hw, if_pos (Or.inr h)]
    · exact absurd h hw

/-- C2: the spacing search started at `s` stops at the pass run at spacing
`s + 10k` for the least `k` at which the stopping rule fires (pass result
within the waypoint limit, or spacing beyond the 5000 ceiling, an empty
pass being returned immediately as the empty result); every earlier pass
was non-empty, over the limit, and under the ceiling, and each retry
raised the spacing by exactly 10. -/
theorem spacing_search_first_fit [FloorRing K] (hav : K × K → K × K → K)
    (ma : Option K) (mw : ℕ) (rows : List (Row K)) (s : K) :
    ∃ k : ℕ,
      process_logs hav ma mw rows s = process_logs_pass hav ma (s + 10 * (k : K)) rows ∧
      passCount hav ma mw rows s = k + 1 ∧
      ((process_logs_pass hav ma (s + 10 * (k : K)) rows).length ≤ mw ∨ s + 10 * (k : K) > 5000) ∧
      (process_logs_pass hav ma (s + 10 * (k : K)) rows = [] →
        process_logs hav ma mw rows s = []) ∧
      (∀ j : ℕ, j < k →
        process_logs_pass hav ma (s + 10 * (j : K)) rows ≠ [] ∧
        mw < (process_logs_pass hav ma (s + 10 * (j : K)) rows).length ∧
        s + 10 * (j : K) ≤ 5000) := by
  suffices h : ∀ (n : ℕ) (s : K), (⌈(5010 : K) - s⌉).toNat ≤ n →
      ∃ k : ℕ,
        process_logs hav ma mw rows s = process_logs_pass hav ma (s + 10 * (k : K)) rows ∧
        passCount hav ma mw rows s = k + 1 ∧
        ((process_logs_pass hav ma (s + 10 * (k : K)) rows).length ≤ mw ∨
          s + 10 * (k : K) > 5000) ∧
        (process_logs_pass hav ma (s + 10 * (k : K)) rows = [] →
          process_logs hav ma mw rows s = []) ∧
        (∀ j : ℕ, j < k →
          process_logs_pass hav ma (s + 10 * (j : K)) rows ≠ [] ∧
          mw < (process_logs_pass hav ma (s + 10 * (j : K)) rows).length ∧
          s + 10 * (j : K) ≤ 5000) by
    exact h _ s le_rfl
  intro n
  induction n with
  | zero =>
    intro s hs
    have hs5 : s > 5000 := by
      have h1 : ⌈(5010 : K) - s⌉ ≤ 0 := by omega
      have h2 : (5010 : K) - s ≤ ((0 : ℤ) : K) := by
        exact_mod_cast Int.ceil_le.mp h1
      push_cast at h2; linarith
    refine ⟨0, ?_⟩
    have hz : s + 10 * ((0 : ℕ) : K) = s := by push_cast; ring
    rw [hz]
    have hstop := searchAux_stop (Or.inr (Or.inl hs5) :
      (process_logs_pass hav ma s rows).length ≤ mw ∨ s > 5000 ∨
        process_logs_pass hav ma s rows = [])
    have hres : process_logs hav ma mw rows s = process_logs_pass hav ma s rows := by
      rw [process_logs, hstop]
    refine ⟨hres, by rw [passCount, hstop], Or.inr hs5,
      fun he => by rw [hres, he], fun j hj => absurd hj (Nat.not_lt_zero j)⟩
  | succ n ih =>
    intro s hs
    by_cases hstop : (process_logs_pass hav ma s rows).length ≤ mw ∨ s > 5000 ∨
        process_logs_pass hav ma s rows = []
    · refine ⟨0, ?_⟩
      have hz : s + 10 * ((0 : ℕ) : K) = s := by push_cast; ring
      rw [hz]
      have hst := searchAux_stop hstop
      have hres : process_logs hav ma mw rows s = process_logs_pass hav ma s rows := by
        rw [process_logs, hst]
      have hcond : (process_logs_pass hav ma s rows).length ≤ mw ∨ s > 5000 := by
        rcases hstop with h | h | h
        · exact Or.inl h
        · exact Or.inr h
        · exact Or.inl (by simp [h])
      exact ⟨hres, by rw [passCount, hst], hcond,
        fun he => by rw [hres, he], fun j hj => absurd hj (Nat.not_lt_zero j)⟩
    · have hA : ¬ (process_logs_pass hav ma s rows).length ≤ mw :=
        fun h => hstop (Or.inl h)
      have hB : ¬ s > 5000 := fun h => hstop (Or.inr (Or.inl h))
      have hC : process_logs_pass hav ma s rows ≠ [] :=
        fun h => hstop (Or.inr (Or.inr h))
      have hle : s ≤ 5000 := not_lt.mp hB
      have hs2 : (⌈(5010 : K) - (s + 10)⌉).toNat ≤ n := by
        have h10 : (10 : ℤ) ≤ ⌈(5010 : K) - s⌉ := by
          have hle2 : ((10 : ℤ) : K) ≤ (5010 : K) - s := by push_cast; linarith
          calc (10 : ℤ) = ⌈((10 : ℤ) : K)⌉ := (Int.ceil_intCast 10).symm
          _ ≤ ⌈(5010 : K) - s⌉ := Int.ceil_le_ceil hle2
        have heq : ⌈(5010 : K) - (s + 10)⌉ = ⌈(5010 : K) - s⌉ - 10 := by
          rw [show (5010 : K) - (s + 10) = ((5010 : K) - s) - ((10 : ℤ) : K) by push_cast; ring,
            Int.ceil_sub_int]
        omega
      obtain ⟨k, hres, hcount, hcond, hemp, hprev⟩ := ih (s + 10) hs2
      have hrec : searchAux hav ma mw rows s =
          ((searchAux hav ma mw rows (s + 10)).1, (searchAux hav ma mw rows (s + 10)).2 + 1) := by
        rw [searchAux_eq, if_neg hC, if_neg (fun h => h.elim hA hB)]
      have hshift : s + 10 * ((k + 1 : ℕ) : K) = (s + 10) + 10 * (k : K) := by
        push_cast; ring
      have hres1 : process_logs hav ma mw rows s =
          process_logs_pass hav ma (s + 10 * ((k + 1 : ℕ) : K)) rows := by
        rw [process_logs, hrec]
        dsimp only
        rw [hshift, ← hres, process_logs]
      refine ⟨k + 1, hres1, ?_, ?_, fun he => by rw [hres1, he], ?_⟩
      · rw [passCount, hrec]
        dsimp only
        rw [passCount] at hcount
        rw [hcount]
      · rw [hshift]
        exact hcond
      · intro j hj
        cases j with
        | zero =>
          have hz : s + 10 * ((0 : ℕ) : K) = s := by push_cast; ring
          rw [hz]
          exact ⟨hC, not_le.mp hA, hle⟩
        | succ j2 =>
          have hshiftj : s + 10 * ((j2 + 1 : ℕ) : K) = (s + 10) + 10 * (j2 : K) := by
            push_cast; ring
          rw [hshiftj]
          exact hprev j2 (Nat.lt_of_succ_lt_succ hj)

/-- C4 (amended): the spacing search always terminates (the search
function is total), and it performs at most
`max 1 (floor((5000 - baseSpacing)/10) + 2)` decimation passes: one pass
at each spacing from the base up to the first spacing beyond the 5000
ceiling.  The bound claimed by the spec, `(5000 - baseSpacing)/10`, is
short by two passes. -/
theorem passCount_bound [FloorRing K] (hav : K × K → K × K → K)
    (ma : Option K) (mw : ℕ) (rows : List (Row K)) (b : K) :
    (passCount hav ma mw rows b : ℤ) ≤ max 1 (⌊((5000 : K) - b) / 10⌋ + 2) := by
  suffices h : ∀ (n : ℕ) (s : K), (⌈(5010 : K) - s⌉).toNat ≤ n →
      (passCount hav ma mw rows s : ℤ) ≤ max 1 (⌊((5000 : K) - s) / 10⌋ + 2) by
    exact h _ b le_rfl
  intro n
  induction n with
  | zero =>
    intro s hs
    have hs5 : s > 5000 := by
      have h1 : ⌈(5010 : K) - s⌉ ≤ 0 := by omega
      have h2 : (5010 : K) - s ≤ ((0 : ℤ) : K) := by exact_mod_cast Int.ceil_le.mp h1
      push_cast at h2; linarith
    have hst := searchAux_stop (Or.inr (Or.inl hs5) :
      (process_logs_pass hav ma s rows).length ≤ mw ∨ s > 5000 ∨
        process_logs_pass hav ma s rows = [])
    rw [passCount, hst]
    exact le_max_left 1 _
  | succ n ih =>
    intro s hs
    by_cases hstop : (process_logs_pass hav ma s rows).length ≤ mw ∨ s > 5000 ∨
        process_logs_pass hav ma s rows = []
    · have hst := searchAux_stop hstop
      rw [passCount, hst]
      exact le_max_left 1 _
    · have hA : ¬ (process_logs_pass hav ma s rows).length ≤ mw :=
        fun h => hstop (Or.inl h)
      have hB : ¬ s > 5000 := fun h => hstop (Or.inr (Or.inl h))
      have hC : process_logs_pass hav ma s rows ≠ [] :=
        fun h => hstop (Or.inr (Or.inr h))
      have hle : s ≤ 5000 := not_lt.mp hB
      have hs2 : (⌈(5010 : K) - (s + 10)⌉).toNat ≤ n := by
        have h10 : (10 : ℤ) ≤ ⌈(5010 : K) - s⌉ := by
          have hle2 : ((10 : ℤ) : K) ≤ (5010 : K) - s := by push_cast; linarith
          calc (10 : ℤ) = ⌈((10 : ℤ) : K)⌉ := (Int.ceil_intCast 10).symm
          _ ≤ ⌈(5010 : K) - s⌉ := Int.ceil_le_ceil hle2
        have heq : ⌈(5010 : K) - (s + 10)⌉ = ⌈(5010 : K) - s⌉ - 10 := by
          rw [show (5010 : K) - (s + 10) = ((5010 : K) - s) - ((10 : ℤ) : K) by push_cast; ring,
            Int.ceil_sub_int]
        omega
      have hrec : searchAux hav ma mw rows s =
          ((searchAux hav ma mw rows (s + 10)).1, (searchAux hav ma mw rows (s + 10)).2 + 1) := by
        rw [searchAux_eq, if_neg hC, if_neg (fun h => h.elim hA hB)]
      have hih := ih (s + 10) hs2
      have hfl : ⌊((5000 : K) - (s + 10)) / 10⌋ = ⌊((5000 : K) - s) / 10⌋ - 1 := by
        rw [show ((5000 : K) - (s + 10)) / 10 = ((5000 : K) - s) / 10 - 1 by ring,
          Int.floor_sub_one]
      have hnn : 0 ≤ ⌊((5000 : K) - s) / 10⌋ :=
        Int.floor_nonneg.mpr (div_nonneg (by linarith) (by norm_num))
      rw [passCount, hrec]
      dsimp only
      rw [passCount] at hih
      rw [hfl] at hih
      have hmax : max 1 (⌊((5000 : K) - s) / 10⌋ - 1 + 2) = ⌊((5000 : K) - s) / 10⌋ + 1 := by
        rw [show ⌊((5000 : K) - s) / 10⌋ - 1 + 2 = ⌊((5000 : K) - s) / 10⌋ + 1 by ring]
        exact max_eq_right (by omega)
      rw [hmax] at hih
      have hmax2 : max 1 (⌊((5000 : K) - s) / 10⌋ + 2) = ⌊((5000 : K) - s) / 10⌋ + 2 :=
        max_eq_right (by omega)
      rw [hmax2]
      push_cast
      linarith

/-- C4 counterexample: on the empty record list with base spacing 5000
the search performs one decimation pass, which already exceeds the
claimed bound of `(5000 - baseSpacing)/10 = 0` passes. -/
theorem passCount_exceeds_claimed_bound :
    passCount RealGeo.havR none 100 ([] : List (Row ℝ)) 5000 = 1 ∧
    ¬ ((passCount RealGeo.havR none 100 ([] : List (Row ℝ)) 5000 : ℝ) ≤
        ((5000 : ℝ) - 5000) / 10) := by
  have h : passCount RealGeo.havR none 100 ([] : List (Row ℝ)) 5000 = 1 := by
    rw [passCount, searchAux]
    simp [process_logs_pass, passAux]
  refine ⟨h, ?_⟩
  rw [h]
  norm_num

end EdgeTX2Mission

namespace RealGeo

theorem atan2_of_pos_x (y x : ℝ) (hx : 0 < x) : atan2 y x = Real.arctan (y / x) := by
  rw [atan2, if_pos hx]

theorem haversine_equator (a b : ℝ) (h : |b - a| < 180) :
    haversine 0 a 0 b = 6371000 * (Real.pi / 180) * |b - a| := by
  have hpi : (0 : ℝ) < Real.pi := Real.pi_pos
  have habs : |rad (b - a) / 2| = |b - a| * Real.pi / 360 := by
    rw [rad, abs_div, abs_div, abs_mul, abs_of_pos hpi]
    norm_num
    ring
  have hlt : |rad (b - a) / 2| < Real.pi / 2 := by
    rw [habs]
    have h2 : |b - a| * Real.pi < 180 * Real.pi := mul_lt_mul_of_pos_right h hpi
    linarith
  obtain ⟨hgt, hlt2⟩ := abs_lt.mp hlt
  have hcos : 0 < Real.cos (rad (b - a) / 2) := Real.cos_pos_of_mem_Ioo ⟨hgt, hlt2⟩
  unfold haversine
  dsimp only
  have e1 : Real.sin (rad (0 - 0) / 2) ^ 2 +
      Real.cos (rad 0) * Real.cos (rad 0) * Real.sin (rad (b - a) / 2) ^ 2 =
      Real.sin (rad (b - a) / 2) ^ 2 := by
    simp [rad]
  rw [e1]
  have e2 : 1 - Real.sin (rad (b - a) / 2) ^ 2 = Real.cos (rad (b - a) / 2) ^ 2 := by
    have := Real.sin_sq_add_cos_sq (rad (b - a) / 2)
    linarith
  rw [e2, Real.sqrt_sq_eq_abs, Real.sqrt_sq_eq_abs, abs_of_pos hcos,
    atan2_of_pos_x _ _ hcos]
  have e3 : |Real.sin (rad (b - a) / 2)| = Real.sin |rad (b - a) / 2| := by
    rcases le_or_lt 0 (rad (b - a) / 2) with hx | hx
    · rw [abs_of_nonneg hx, abs_of_nonneg (Real.sin_nonneg_of_nonneg_of_le_pi hx (by linarith))]
    · rw [abs_of_neg hx,
        abs_of_neg (Real.sin_neg_of_neg_of_neg_pi_lt hx (by linarith)), Real.sin_neg]
  rw [e3, ← Real.cos_abs (rad (b - a) / 2), ← Real.tan_eq_sin_div_cos,
    Real.arctan_tan (by linarith [abs_nonneg (rad (b - a) / 2)]) hlt]
  rw [habs]
  ring

end RealGeo

namespace EdgeTX2Mission

open RealGeo

variable {K : Type*} [LinearOrderedField K]

/-- C3 counterexample: on four equator samples at longitudes 1, 1.003,
1.005 and 1.001 degrees (a path that doubles back), the pass at spacing
300 keeps 2 waypoints while the pass at the larger spacing 400 keeps 3,
so a larger spacing can keep strictly more waypoints. -/
theorem pass_spacing_not_monotone_cex :
    (300 : ℝ) ≤ 400 ∧
    ¬ ((process_logs_pass havR none 400
          [⟨.toks [some 0, some 1], some 50⟩,
           ⟨.toks [some 0, some (1 + 3 / 1000)], some 50⟩,
           ⟨.toks [some 0, some (1 + 5 / 1000)], some 50⟩,
           ⟨.toks [some 0, some (1 + 1 / 1000)], some 50⟩]).length ≤
        (process_logs_pass havR none 300
          [⟨.toks [some 0, some 1], some 50⟩,
           ⟨.toks [some 0, some (1 + 3 / 1000)], some 50⟩,
           ⟨.toks [some 0, some (1 + 5 / 1000)], some 50⟩,
           ⟨.toks [some 0, some (1 + 1 / 1000)], some 50⟩]).length) := by
  have hparse : ∀ lon : ℝ, lon ≠ 0 → -180 ≤ lon → lon ≤ 180 →
      parseRow (none : Option ℝ) ⟨.toks [some 0, some lon], some 50⟩ = some ⟨0, lon, 50⟩ := by
    intro lon h0 h1 h2
    norm_num [parseRow, parseGps, h0, h1, h2]
  have hp1 : parseRow (none : Option ℝ) ⟨.toks [some 0, some 1], some 50⟩ =
      some ⟨0, 1, 50⟩ := hparse 1 (by norm_num) (by norm_num) (by norm_num)
  have hp2 : parseRow (none : Option ℝ) ⟨.toks [some 0, some (1 + 3 / 1000)], some 50⟩ =
      some ⟨0, 1 + 3 / 1000, 50⟩ := hparse _ (by norm_num) (by norm_num) (by norm_num)
  have hp3 : parseRow (none : Option ℝ) ⟨.toks [some 0, some (1 + 5 / 1000)], some 50⟩ =
      some ⟨0, 1 + 5 / 1000, 50⟩ := hparse _ (by norm_num) (by norm_num) (by norm_num)
  have hp4 : parseRow (none : Option ℝ) ⟨.toks [some 0, some (1 + 1 / 1000)], some 50⟩ =
      some ⟨0, 1 + 1 / 1000, 50⟩ := hparse _ (by norm_num) (by norm_num) (by norm_num)
  have habs_pos : ∀ u v w : ℝ, v - u = w → 0 ≤ w → |v - u| = w := by
    intro u v w he hw; rw [he, abs_of_nonneg hw]
  have habs_neg : ∀ u v w : ℝ, v - u = -w → 0 ≤ w → |v - u| = w := by
    intro u v w he hw; rw [he, abs_neg, abs_of_nonneg hw]
  have hdist : ∀ x y : ℝ, |y - x| < 180 →
      havR (0, x) (0, y) = 6371000 * (Real.pi / 180) * |y - x| :=
    fun x y hxy => haversine_equator x y hxy
  have c12 : havR (0, 1) (0, 1 + 3 / 1000) = 6371000 * (Real.pi / 180) * (3 / 1000) := by
    have e := habs_pos 1 (1 + 3 / 1000) (3 / 1000) (by norm_num) (by norm_num)
    rw [hdist 1 (1 + 3 / 1000) (by rw [e]; norm_num), e]
  have c13 : havR (0, 1) (0, 1 + 5 / 1000) = 6371000 * (Real.pi / 180) * (5 / 1000) := by
    have e := habs_pos 1 (1 + 5 / 1000) (5 / 1000) (by norm_num) (by norm_num)
    rw [hdist 1 (1 + 5 / 1000) (by rw [e]; norm_num), e]
  have c14 : havR (0, 1) (0, 1 + 1 / 1000) = 6371000 * (Real.pi / 180) * (1 / 1000) := by
    have e := habs_pos 1 (1 + 1 / 1000) (1 / 1000) (by norm_num) (by norm_num)
    rw [hdist 1 (1 + 1 / 1000) (by rw [e]; norm_num), e]
  have c23 : havR (0, 1 + 3 / 1000) (0, 1 + 5 / 1000) =
      6371000 * (Real.pi / 180) * (2 / 1000) := by
    have e := habs_pos (1 + 3 / 1000) (1 + 5 / 1000) (2 / 1000) (by norm_num) (by norm_num)
    rw [hdist (1 + 3 / 1000) (1 + 5 / 1000) (by rw [e]; norm_num), e]
  have c24 : havR (0, 1 + 3 / 1000) (0, 1 + 1 / 1000) =
      6371000 * (Real.pi / 180) * (2 / 1000) := by
    have e := habs_neg (1 + 3 / 1000) (1 + 1 / 1000) (2 / 1000) (by norm_num) (by norm_num)
    rw [hdist (1 + 3 / 1000) (1 + 1 / 1000) (by rw [e]; norm_num), e]
  have c34 : havR (0, 1 + 5 / 1000) (0, 1 + 1 / 1000) =
      6371000 * (Real.pi / 180) * (4 / 1000) := by
    have e := habs_neg (1 + 5 / 1000) (1 + 1 / 1000) (4 / 1000) (by norm_num) (by norm_num)
    rw [hdist (1 + 5 / 1000) (1 + 1 / 1000) (by rw [e]; norm_num), e]
  have hb_3_lt_400 : 6371000 * (Real.pi / 180) * (3 / 1000) < 400 := by
    nlinarith [Real.pi_lt_d2]
  have hb_3_ge_300 : 6371000 * (Real.pi / 180) * (3 / 1000) ≥ 300 := by
    nlinarith [Real.pi_gt_d2]
  have hb_2_lt_300 : 6371000 * (Real.pi / 180) * (2 / 1000) < 300 := by
    nlinarith [Real.pi_lt_d2]
  have hb_5_ge_400 : 6371000 * (Real.pi / 180) * (5 / 1000) ≥ 400 := by
    nlinarith [Real.pi_gt_d2]
  have hb_4_ge_400 : 6371000 * (Real.pi / 180) * (4 / 1000) ≥ 400 := by
    nlinarith [Real.pi_gt_d2]
  have hb_le_jump : ∀ c : ℝ, 0 ≤ c → c ≤ 5 / 1000 →
      ¬ 6371000 * (Real.pi / 180) * c > 500000 := by
    intro c hc0 hc5
    push_neg
    nlinarith [Real.pi_lt_d2, Real.pi_pos]
  have hj12 : ¬ havR (0, 1) (0, 1 + 3 / 1000) > 500000 := by
    rw [c12]; exact hb_le_jump _ (by norm_num) (by norm_num)
  have hj13 : ¬ havR (0, 1) (0, 1 + 5 / 1000) > 500000 := by
    rw [c13]; exact hb_le_jump _ (by norm_num) (by norm_num)
  have hj14 : ¬ havR (0, 1) (0, 1 + 1 / 1000) > 500000 := by
    rw [c14]; exact hb_le_jump _ (by norm_num) (by norm_num)
  have hk12_300 : havR (0, 1) (0, 1 + 3 / 1000) ≥ 300 := by rw [c12]; exact hb_3_ge_300
  have hs23_300 : ¬ havR (0, 1 + 3 / 1000) (0, 1 + 5 / 1000) ≥ 300 := by
    rw [c23]; push_neg; exact hb_2_lt_300
  have hs24_300 : ¬ havR (0, 1 + 3 / 1000) (0, 1 + 1 / 1000) ≥ 300 := by
    rw [c24]; push_neg; exact hb_2_lt_300
  have hs12_400 : ¬ havR (0, 1) (0, 1 + 3 / 1000) ≥ 400 := by
    rw [c12]; push_neg; exact hb_3_lt_400
  have hk13_400 : havR (0, 1) (0, 1 + 5 / 1000) ≥ 400 := by rw [c13]; exact hb_5_ge_400
  have hk34_400 : havR (0, 1 + 5 / 1000) (0, 1 + 1 / 1000) ≥ 400 := by
    rw [c34]; exact hb_4_ge_400
  have e300 : process_logs_pass havR none 300
      [⟨.toks [some 0, some 1], some 50⟩,
       ⟨.toks [some 0, some (1 + 3 / 1000)], some 50⟩,
       ⟨.toks [some 0, some (1 + 5 / 1000)], some 50⟩,
       ⟨.toks [some 0, some (1 + 1 / 1000)], some 50⟩] =
      [⟨0, 1, 50⟩, ⟨0, 1 + 3 / 1000, 50⟩] := by
    rw [process_logs_pass, passAux_first hp1, passAux_keep hp2 hj12 hk12_300,
      passAux_skip hp3 hj13 hs23_300, passAux_skip hp4 hj14 hs24_300]
    simp [passAux]
  have e400 : process_logs_pass havR none 400
      [⟨.toks [some 0, some 1], some 50⟩,
       ⟨.toks [some 0, some (1 + 3 / 1000)], some 50⟩,
       ⟨.toks [some 0, some (1 + 5 / 1000)], some 50⟩,
       ⟨.toks [some 0, some (1 + 1 / 1000)], some 50⟩] =
      [⟨0, 1, 50⟩, ⟨0, 1 + 5 / 1000, 50⟩, ⟨0, 1 + 1 / 1000, 50⟩] := by
    rw [process_logs_pass, passAux_first hp1, passAux_skip hp2 hj12 hs12_400,
      passAux_keep hp3 hj13 hk13_400, passAux_keep hp4 hj14 hk34_400]
    simp [passAux]
  refine ⟨by norm_num, ?_⟩
  rw [e300, e400]
  norm_num

/-- C3 (amended): the kept-waypoint count of a pass at the larger of two
spacings is still bounded by the number of successfully parsed records
(every pass output is a subsequence of those), but the count is not
monotone in the spacing: a larger spacing can keep strictly more
waypoints, as the counterexample shows. -/
theorem pass_length_bounded (hav : K × K → K × K → K) (ma : Option K)
    (s1 s2 : K) (rows : List (Row K)) (_h : s1 ≤ s2) :
    (process_logs_pass hav ma s2 rows).length ≤ (rows.filterMap (parseRow ma)).length :=
  (passAux_sublist rows none).length_le

theorem pass_length_bounded_witness :
    (1 : ℚ) ≤ 2 ∧
    (process_logs_pass (fun _ _ => (0 : ℚ)) none 2
        [⟨.toks [some 30, some (-100)], some 50⟩]).length ≤
      ([⟨.toks [some 30, some (-100)], some 50⟩].filterMap (parseRow (none : Option ℚ))).length :=
  ⟨by norm_num, pass_length_bounded (fun _ _ => (0 : ℚ)) none 1 2 _ (by norm_num)⟩

theorem buildItems_eq_nil_iff [FloorRing K] {speed p3 : ℤ} {wps : List (Sample K)} {n : ℕ} :
    buildItems speed p3 wps n = [] ↔ wps = [] := by
  cases wps <;> simp [buildItems]

/-- C5 counterexample: in the v1 revision the conversion serializes
whatever the spacing loop returns: on an empty record list the loop
returns the empty waypoint list at once, and a mission document with
zero `missionitem` elements is still produced. -/
theorem v1_empty_decimation_still_serializes :
    EdgeTX2MissionV1.v1SearchAux RealGeo.havR none ([] : List (Row ℝ)) 1 300 = some [] ∧
    EdgeTX2MissionV1.index_v1_core RealGeo.havR none 694 ([] : List (Row ℝ)) 1 =
      some ⟨[]⟩ := by
  constructor
  · simp [EdgeTX2MissionV1.v1SearchAux, EdgeTX2MissionV1.passAux_v1]
  · simp [EdgeTX2MissionV1.index_v1_core, EdgeTX2MissionV1.v1SearchAux,
      EdgeTX2MissionV1.passAux_v1, buildItems]

/-- C5 (amended): in the v2 revision serialization runs only when
decimation produced a non-empty waypoint sequence: the conversion yields
no document exactly when the search result is empty, and any produced
document serializes that non-empty result, so it has at least one
`missionitem`.  The v1 revision violates this, per the counterexample. -/
theorem v2_serializes_only_nonempty [FloorRing K] (hav : K × K → K × K → K) (ma : Option K)
    (mw : ℕ) (speed : ℤ) (rows : List (Row K)) (b : K) :
    (index_v2_core hav ma mw speed rows b = none ↔ process_logs hav ma mw rows b = []) ∧
    (∀ d, index_v2_core hav ma mw speed rows b = some d →
      d.items = buildItems speed 0 (process_logs hav ma mw rows b) 1 ∧ d.items ≠ []) := by
  by_cases hw : process_logs hav ma mw rows b = []
  · constructor
    · simp [index_v2_core, hw]
    · intro d hd
      simp [index_v2_core, hw] at hd
  · constructor
    · simp [index_v2_core, hw]
    · intro d hd
      simp [index_v2_core, hw] at hd
      constructor
      · rw [← hd]
      · rw [← hd]
        simp only [Ne, buildItems_eq_nil_iff]
        exact hw

theorem v2_serializes_only_nonempty_witness :
    index_v2_core (fun _ _ => (0 : ℚ)) none 100 694
        [⟨.toks [some 30, some (-100)], some 50⟩] 100 =
      some ⟨[⟨1, 30, -100, 50, 694, 0⟩]⟩ ∧
    (⟨[⟨1, 30, -100, 50, 694, 0⟩]⟩ : MissionDoc ℚ).items ≠ [] := by
  have hpass : process_logs_pass (fun _ _ => (0 : ℚ)) none (100 : ℚ)
      [⟨.toks [some 30, some (-100)], some 50⟩] = [⟨30, -100, 50⟩] := by decide
  have hsearch : searchAux (fun _ _ => (0 : ℚ)) none 100
      [⟨.toks [some 30, some (-100)], some 50⟩] 100 = ([⟨30, -100, 50⟩], 1) := by
    rw [searchAux_eq, hpass]
    norm_num
  have hidx : index_v2_core (fun _ _ => (0 : ℚ)) none 100 694
      [⟨.toks [some 30, some (-100)], some 50⟩] 100 =
      some ⟨[⟨1, 30, -100, 50, 694, 0⟩]⟩ := by
    simp [index_v2_core, process_logs, hsearch, buildItems, pyInt]
  exact ⟨hidx,
    ((v2_serializes_only_nonempty (fun _ _ => (0 : ℚ)) none 100 694
        [⟨.toks [some 30, some (-100)], some 50⟩] 100).2
      ⟨[⟨1, 30, -100, 50, 694, 0⟩]⟩ hidx).2⟩

end EdgeTX2Mission
